import Mathlib

/-!
Shallow embedding of `src/fluffy_octo_spoon/transaction_classifier.py`
(class `TransactionClassifier`), the classification engine of the
repository: export-preamble scanning, locale amount parsing, keyword
classification with amount-threshold fallback and reconciliation,
identifier assignment and batch processing.

Modelling conventions:
* Python `Decimal` values are exact rationals (`ℚ`); the `Decimal(str)`
  constructor is modelled by `decimalParse` covering the plain decimal
  literal grammar (optional sign, digits, optional fractional part) that
  the bank-export fields use; it returns `none` on malformed input,
  standing for the raised `InvalidOperation`.
* A CSV row (a `csv.DictReader` dictionary) is an association list
  `Row`; `getField` is `dict.get`, `dictSet` is item assignment.
* Logging is a side channel: `_parse_amount` returns its value paired
  with a `Bool` recording whether the warning/error branch (lines
  136/139) ran, and `classify_transaction` returns the category paired
  with a `Bool` recording whether the category-conflict warning
  (line 170) was emitted.
* `uuid.uuid4()` (method `_generate_transaction_id`) is modelled as a
  supply `gen : Nat → String` of tokens, drawn in row order; its
  freshness/injectivity is a hypothesis where uniqueness is claimed.
* The `csv` module's reading of the cleaned content is an external
  collaborator; `process_transactions` takes it as a parameter
  `parseRows`.
-/

/-- Python truthiness of `Optional[str]`: `None` and `""` are falsy. -/
def truthyOpt : Option String → Bool
  | none => false
  | some s => s != ""

/-- Lower-casing of a string, character by character, as a character
list (model of `str.lower()`, used on descriptions and keywords). -/
def lowerStr (s : String) : List Char :=
  s.data.map Char.toLower

/-- Model of `needle.isPrefixOf hay` on character lists. -/
def startsWithChars : List Char → List Char → Bool
  | [], _ => true
  | _ :: _, [] => false
  | a :: as, b :: bs => a = b && startsWithChars as bs

/-- Model of the Python substring test `needle in hay`. -/
def containsSub (needle : List Char) : List Char → Bool
  | [] => needle.isEmpty
  | b :: bs => startsWithChars needle (b :: bs) || containsSub needle bs

/-- The `EXPECTED_COLUMNS` class constant (lines 15-30). -/
def EXPECTED_COLUMNS : List String :=
  ["Abschlussdatum", "Abschlusszeit", "Buchungsdatum", "Valutadatum",
   "Währung", "Belastung", "Gutschrift", "Einzelbetrag", "Saldo",
   "Transaktions-Nr.", "Beschreibung1", "Beschreibung2", "Beschreibung3",
   "Fussnoten"]

/-- Numeric value of a digit list, most significant first
(the integral or fractional digit block consumed by `Decimal`). -/
def natOfDigits (l : List Char) : ℕ :=
  l.foldl (fun n c => 10 * n + (c.toNat - 48)) 0

/-- Unsigned part of the `Decimal` literal grammar: digits with an
optional single decimal point, at least one digit overall. -/
def parseUnsigned (l : List Char) : Option ℚ :=
  let intPart := l.takeWhile Char.isDigit
  match l.dropWhile Char.isDigit with
  | [] => if intPart.isEmpty then none else some (natOfDigits intPart)
  | c :: frac =>
    if c = '.' ∧ frac.all Char.isDigit ∧ (intPart ≠ [] ∨ frac ≠ []) then
      some (((natOfDigits intPart : ℚ) * 10 ^ frac.length + natOfDigits frac) / 10 ^ frac.length)
    else none

/-- Model of the `Decimal(s)` constructor on the normalized amount
strings: optional sign, then an unsigned decimal literal; `none` models
the `InvalidOperation` exception on malformed input. -/
def decimalParse (s : String) : Option ℚ :=
  match s.data with
  | [] => none
  | c :: rest =>
    if c = '-' then (parseUnsigned rest).map Neg.neg
    else if c = '+' then parseUnsigned rest
    else parseUnsigned (c :: rest)

/-- The normalization `s.replace("'", "").replace(",", ".")` of lines
128/132: every apostrophe (thousands separator) is removed, then every
comma becomes a decimal point. -/
def normalizeAmount (s : String) : String :=
  String.mk ((s.data.filter (fun c => c ≠ Char.ofNat 39)).map
    (fun c => if c = ',' then '.' else c))

/-- Method `_parse_amount` (lines 112-140). First component: the
returned `Decimal`. Second component: whether the no-amount warning
(line 136) or the parse-failure error (line 139) was logged; on both of
those paths the result is `Decimal("0")`. -/
def _parse_amount (debit credit : String) : ℚ × Bool :=
  if debit ≠ "" then
    match decimalParse (normalizeAmount debit) with
    | some q => (-|q|, false)
    | none => (0, true)
  else if credit ≠ "" then
    match decimalParse (normalizeAmount credit) with
    | some q => (q, false)
    | none => (0, true)
  else (0, true)

/-- The keyword scan of lines 164-167 / 180-183: the first category (in
declared order) one of whose keywords, lower-cased, is a substring of
the lower-cased description `d`. -/
def findMatch (categories : List (String × List String)) (d : List Char) : Option String :=
  (categories.find? (fun ck => ck.2.any (fun kw => containsSub (lowerStr kw) d))).map Prod.fst

/-- Method `classify_transaction` (lines 142-196). First component: the
returned category. Second component: whether the category-conflict
warning (line 170) was emitted. The guard `if new_category and ...` of
line 169 also tests the truthiness of the matched name, so an
empty-named matched category never wins over an existing one. -/
def classify_transaction (categories : List (String × List String)) (description : String)
    (amount : ℚ) (existing_category : Option String) : String × Bool :=
  if truthyOpt existing_category then
    let ec := existing_category.getD ""
    match findMatch categories (lowerStr description) with
    | some new_category =>
      if new_category ≠ "" ∧ new_category ≠ ec then (new_category, true)
      else (ec, false)
    | none => (ec, false)
  else
    match findMatch categories (lowerStr description) with
    | some category => (category, false)
    | none =>
      if amount > 0 then
        if amount > 3000 then ("Gehalt", false) else ("Sonstiges", false)
      else if amount < 0 then
        if 1000 < |amount| then ("Grosse Ausgaben", false) else ("Sonstiges", false)
      else ("Sonstiges", false)

/-- A `csv.DictReader` row: field name to raw string value. -/
abbrev Row : Type := List (String × String)

/-- Model of `row.get(key)`: the value stored under `key`, if any. -/
def getField : Row → String → Option String
  | [], _ => none
  | (k, v) :: rest, key => if k = key then some v else getField rest key

/-- Model of `row[key] = value`: replace the value under an existing
key in place, otherwise append the new field at the end (Python dict
insertion-order semantics). -/
def dictSet (row : Row) (key value : String) : Row :=
  if (getField row key).isSome then
    row.map (fun p => if p.1 = key then (key, value) else p)
  else row ++ [(key, value)]

/-- Python `" ".join(strs)`. -/
def joinSep : List String → String
  | [] => ""
  | [s] => s
  | s :: rest => s ++ " " ++ joinSep rest

/-- The combined description of lines 230-234:
`" ".join(filter(None, [b1, b2, b3]))` — empty description fields are
dropped before joining with single spaces. -/
def combined_description (b1 b2 b3 : String) : String :=
  joinSep ([b1, b2, b3].filter (fun s => s ≠ ""))

/-- Modelled from the spec's words (§4.5), for comparison with
`combined_description`: concatenate the non-empty fields in order,
separated by single spaces, an empty field contributing nothing, not
even a separator. -/
def specCombinedDescription : List String → String
  | [] => ""
  | s :: rest =>
    if s = "" then specCombinedDescription rest
    else if specCombinedDescription rest = "" then s
    else s ++ " " ++ specCombinedDescription rest

/-- The body of the `for row in reader` loop (lines 223-246) for the
row at position `i`: take the existing "ID" or draw `gen i`, build the
combined description, parse the amount, classify (with the stored
"Kategorie" as existing category when that column is present), and
attach "ID" and "Kategorie" onto the row. -/
def process_row (categories : List (String × List String)) (gen : ℕ → String)
    (has_category_column : Bool) (i : ℕ) (row : Row) : Row :=
  let transaction_id := (getField row "ID").getD (gen i)
  let description := combined_description ((getField row "Beschreibung1").getD "")
    ((getField row "Beschreibung2").getD "") ((getField row "Beschreibung3").getD "")
  let amount := (_parse_amount ((getField row "Belastung").getD "")
    ((getField row "Gutschrift").getD "")).1
  let existing_category := if has_category_column then getField row "Kategorie" else none
  let category := (classify_transaction categories description amount existing_category).1
  dictSet (dictSet row "ID" transaction_id) "Kategorie" category

/-- The row loop, threading the position used to draw fresh
identifiers. -/
def process_rows_aux (categories : List (String × List String)) (gen : ℕ → String)
    (has_category_column : Bool) : ℕ → List Row → List Row
  | _, [] => []
  | i, row :: rest =>
    process_row categories gen has_category_column i row ::
      process_rows_aux categories gen has_category_column (i + 1) rest

/-- The record-level part of `process_transactions` (lines 215-246):
detect the "Kategorie" column, then run the loop over every row. -/
def process_rows (categories : List (String × List String)) (gen : ℕ → String)
    (rows : List Row) (existing_columns : List String) : List Row :=
  process_rows_aux categories gen (existing_columns.contains "Kategorie") 0 rows

/-- The identifier stored on the row at position `k` of the processed
output. -/
def outId (categories : List (String × List String)) (gen : ℕ → String)
    (rows : List Row) (existing_columns : List String) (k : ℕ) : Option String :=
  ((process_rows categories gen rows existing_columns).get? k).bind
    (fun r => getField r "ID")

/-- The fatal error of line 82 (`ValueError`, the spec's
`HeaderNotFound`). -/
inductive ProcError
  | headerNotFound
deriving DecidableEq

/-- Whitespace stripping of `line.strip()` (line 74). -/
def trimChars (l : List Char) : List Char :=
  ((l.dropWhile Char.isWhitespace).reverse.dropWhile Char.isWhitespace).reverse

/-- Splitting a line on the `;` delimiter (`split(";")` of line 74):
always at least one token, empty tokens kept. -/
def splitOnSemi : List Char → List (List Char)
  | [] => [[]]
  | c :: rest =>
    if c = ';' then [] :: splitOnSemi rest
    else
      match splitOnSemi rest with
      | [] => [[c]]
      | tok :: toks => (c :: tok) :: toks

/-- The token list of one line: strip, then split on `;` (line 74). -/
def lineColumns (line : String) : List String :=
  (splitOnSemi (trimChars line.data)).map String.mk

/-- The match count of line 75: how many tokens of the line equal (case
sensitively) an expected column name. -/
def matchCount (line : String) : ℕ :=
  (lineColumns line).countP (fun col => decide (col ∈ EXPECTED_COLUMNS))

/-- The 80% threshold test of line 76, `matches >= len(EXPECTED_COLUMNS) * 0.8`,
written exactly as the rational inequality it decides on integers (with
14 expected columns both the float product `11.200000000000001` and the
exact `11.2` cut at 12 matches). -/
def headerMatchesThreshold (line : String) : Bool :=
  decide (4 * EXPECTED_COLUMNS.length ≤ 5 * matchCount line)

/-- Method `_clean_csv_content` (lines 56-89): find the first line
meeting the threshold, discard everything before it, and return the
remaining lines with the header's token list; raise when no line
matches. -/
def _clean_csv_content : List String → Except ProcError (List String × List String)
  | [] => Except.error ProcError.headerNotFound
  | line :: rest =>
    if headerMatchesThreshold line then Except.ok (line :: rest, lineColumns line)
    else _clean_csv_content rest

/-- Method `process_transactions` (lines 198-264) up to file output:
clean the content, read the remaining lines into rows (the `csv` module
is the parameter `parseRows`), and process every row; the
header-not-found error aborts the run before any output exists. -/
def process_transactions (parseRows : List String → List Row)
    (categories : List (String × List String)) (gen : ℕ → String)
    (content : List String) : Except ProcError (List Row) :=
  match _clean_csv_content content with
  | Except.error e => Except.error e
  | Except.ok (cleaned, existing_columns) =>
    Except.ok (process_rows categories gen (parseRows cleaned) existing_columns)

/-! Helper lemmas about field lookup and update. -/

theorem getField_map_replace_ne (k v k2 : String) (h : k ≠ k2) :
    ∀ r : Row, getField (r.map (fun p => if p.1 = k then (k, v) else p)) k2 = getField r k2 := by
  intro r
  induction r with
  | nil => rfl
  | cons p rest ih =>
    simp only [List.map_cons]
    by_cases hp : p.1 = k
    · rw [if_pos hp]
      simp only [getField, if_neg h]
      have hp2 : ¬ p.1 = k2 := by rw [hp]; exact h
      rw [if_neg hp2]
      exact ih
    · rw [if_neg hp]
      simp only [getField]
      by_cases hp2 : p.1 = k2
      · rw [if_pos hp2, if_pos hp2]
      · rw [if_neg hp2, if_neg hp2]
        exact ih

theorem getField_map_replace_some (k v : String) :
    ∀ r : Row, (getField r k).isSome →
      getField (r.map (fun p => if p.1 = k then (k, v) else p)) k = some v := by
  intro r
  induction r with
  | nil => intro h; simp [getField] at h
  | cons p rest ih =>
    intro h
    simp only [List.map_cons]
    by_cases hp : p.1 = k
    · rw [if_pos hp]
      simp [getField]
    · rw [if_neg hp]
      simp only [getField, if_neg hp] at h ⊢
      exact ih h

theorem getField_append_of_none (r s : Row) (k : String) (h : getField r k = none) :
    getField (r ++ s) k = getField s k := by
  induction r with
  | nil => rfl
  | cons p rest ih =>
    simp only [getField] at h
    by_cases hp : p.1 = k
    · rw [if_pos hp] at h; exact absurd h (by simp)
    · rw [if_neg hp] at h
      simp only [List.cons_append, getField, if_neg hp]
      exact ih h

theorem getField_append_of_some (r s : Row) (k w : String) (h : getField r k = some w) :
    getField (r ++ s) k = some w := by
  induction r with
  | nil => simp [getField] at h
  | cons p rest ih =>
    simp only [getField] at h
    simp only [List.cons_append, getField]
    by_cases hp : p.1 = k
    · rw [if_pos hp] at h; rw [if_pos hp]; exact h
    · rw [if_neg hp] at h; rw [if_neg hp]; exact ih h

theorem getField_dictSet_self (r : Row) (k v : String) :
    getField (dictSet r k v) k = some v := by
  unfold dictSet
  by_cases h : (getField r k).isSome
  · rw [if_pos h]
    exact getField_map_replace_some k v r h
  · rw [if_neg h]
    have hn : getField r k = none := by
      cases hx : getField r k with
      | none => rfl
      | some w => rw [hx] at h; simp at h
    rw [getField_append_of_none r _ k hn]
    simp [getField]

theorem getField_dictSet_ne (r : Row) (k v k2 : String) (h : k ≠ k2) :
    getField (dictSet r k v) k2 = getField r k2 := by
  unfold dictSet
  by_cases hs : (getField r k).isSome
  · rw [if_pos hs]
    exact getField_map_replace_ne k v k2 h r
  · rw [if_neg hs]
    cases hx : getField r k2 with
    | some w => exact getField_append_of_some r _ k2 w hx
    | none =>
      rw [getField_append_of_none r _ k2 hx]
      simp [getField, if_neg h]

/-! Helper lemmas about the row loop and the keyword scan. -/

theorem getField_process_row_id (categories : List (String × List String)) (gen : ℕ → String)
    (hc : Bool) (i : ℕ) (row : Row) :
    getField (process_row categories gen hc i row) "ID"
      = some ((getField row "ID").getD (gen i)) := by
  unfold process_row
  rw [getField_dictSet_ne _ _ _ _ (by decide : "Kategorie" ≠ "ID")]
  rw [getField_dictSet_self]

theorem process_rows_aux_get? (categories : List (String × List String)) (gen : ℕ → String)
    (hc : Bool) :
    ∀ (rows : List Row) (i k : ℕ),
      (process_rows_aux categories gen hc i rows).get? k
        = (rows.get? k).map (process_row categories gen hc (i + k)) := by
  intro rows
  induction rows with
  | nil => intro i k; simp [process_rows_aux]
  | cons row rest ih =>
    intro i k
    cases k with
    | zero => simp [process_rows_aux]
    | succ k =>
      simp only [process_rows_aux, List.get?]
      rw [ih (i + 1) k]
      have : i + 1 + k = i + (k + 1) := by omega
      rw [this]

theorem process_rows_aux_length (categories : List (String × List String)) (gen : ℕ → String)
    (hc : Bool) : ∀ (rows : List Row) (i : ℕ),
      (process_rows_aux categories gen hc i rows).length = rows.length := by
  intro rows
  induction rows with
  | nil => intro i; rfl
  | cons row rest ih => intro i; simp [process_rows_aux, ih]

theorem outId_eq (categories : List (String × List String)) (gen : ℕ → String)
    (rows : List Row) (existing_columns : List String) (k : ℕ) :
    outId categories gen rows existing_columns k
      = (rows.get? k).map (fun r => (getField r "ID").getD (gen k)) := by
  unfold outId process_rows
  rw [process_rows_aux_get?]
  cases h : rows.get? k with
  | none => rfl
  | some r =>
    show (some (process_row categories gen (existing_columns.contains "Kategorie") (0 + k) r)).bind
        (fun r => getField r "ID") = _
    rw [Nat.zero_add, Option.some_bind, getField_process_row_id]
    rfl

theorem findMatch_mem {categories : List (String × List String)} {d : List Char} {c : String}
    (h : findMatch categories d = some c) : ∃ p ∈ categories, p.1 = c := by
  unfold findMatch at h
  cases hf : categories.find? (fun ck => ck.2.any (fun kw => containsSub (lowerStr kw) d)) with
  | none => rw [hf] at h; simp at h
  | some p =>
    rw [hf] at h
    simp at h
    exact ⟨p, List.mem_of_find?_eq_some hf, h⟩

theorem findMatch_append_of_miss (pre rest : List (String × List String)) (d : List Char)
    (h : ∀ p ∈ pre, (p.2.any (fun kw => containsSub (lowerStr kw) d)) = false) :
    findMatch (pre ++ rest) d = findMatch rest d := by
  induction pre with
  | nil => rfl
  | cons a pre ih =>
    have ha := h a (by simp)
    simp only [findMatch, List.cons_append]
    rw [List.find?_cons_of_neg _ (by simp [ha])]
    exact ih (fun p hp => h p (by simp [hp]))

theorem findMatch_cons_hit (c : String) (kws : List String)
    (post : List (String × List String)) (d : List Char)
    (h : (kws.any (fun kw => containsSub (lowerStr kw) d)) = true) :
    findMatch ((c, kws) :: post) d = some c := by
  simp only [findMatch]
  rw [List.find?_cons_of_pos _ (by simpa using h)]
  rfl

theorem process_rows_aux_map_id (categories : List (String × List String)) (gen : ℕ → String)
    (hc : Bool) : ∀ (rows : List Row) (i : ℕ), (∀ r ∈ rows, (getField r "ID").isSome) →
      (process_rows_aux categories gen hc i rows).map (fun r => getField r "ID")
        = rows.map (fun r => getField r "ID") := by
  intro rows
  induction rows with
  | nil => intro i _; rfl
  | cons row rest ih =>
    intro i h
    obtain ⟨v, hv⟩ := Option.isSome_iff_exists.mp (h row (by simp))
    simp only [process_rows_aux, List.map_cons]
    rw [getField_process_row_id, hv]
    simp only [Option.getD_some]
    rw [ih (i + 1) (fun r hr => h r (by simp [hr]))]

/-- C1: the claim reads "for every call to the amount parser where the
debit string is empty and the credit string is non-empty and parses as
a numeral, the returned amount is the parsed magnitude with positive
sign". The code (line 132) returns the parsed value without taking its
absolute value, so for the negative credit string "-50" the returned
amount is the negative -50, not the positive magnitude 50 promised by
the claim and by the method's own docstring ("positive for credits",
line 122). This theorem evaluates the embedded code at that failing
input. -/
theorem c1_credit_sign_eval : _parse_amount "" "-50" = (-50, false) := by
  have h : _parse_amount "" "-50" = (-((50 : ℕ) : ℚ), false) := rfl
  rw [h]
  norm_num

/-- C6: for every non-empty debit string that (after stripping
apostrophes and turning the decimal comma into a point) parses as a
numeral `q`, the parser returns the negation of the absolute value of
`q` — so an already-negative debit string is not double-negated — and
on the concrete input debit="1'234,50", credit="" it returns exactly
the rational -1234.50 = -2469/2, with no warning logged. -/
theorem c6_debit_negative_abs :
    (∀ debit credit : String, debit ≠ "" → ∀ q : ℚ,
      decimalParse (normalizeAmount debit) = some q →
        _parse_amount debit credit = (-|q|, false))
    ∧ _parse_amount "1\'234,50" "" = (-(2469 / 2 : ℚ), false) := by
  constructor
  · intro debit credit hd q hq
    simp only [_parse_amount, if_pos hd, hq]
  · have h : _parse_amount "1\'234,50" "" =
        (-|((((1234 : ℕ) : ℚ) * 10 ^ 2 + ((50 : ℕ) : ℚ)) / 10 ^ 2)|, false) := rfl
    rw [h]
    norm_num

theorem c6_debit_negative_abs_witness :
    ("5" : String) ≠ "" ∧ _parse_amount "5" "x" = (-|((5 : ℕ) : ℚ)|, false) :=
  ⟨by decide, c6_debit_negative_abs.1 "5" "x" (by decide) ((5 : ℕ) : ℚ) rfl⟩

/-- C8: when both the debit and the credit string are empty, or when
the selected string fails to parse as a numeral, the returned amount is
exactly zero and the warning/error branch is recorded (second component
`true`); the failure is non-fatal: the run continues and every record
is still processed (the processed output has one row per input row,
whatever the rows hold). -/
theorem c8_parse_failure_nonfatal :
    _parse_amount "" "" = (0, true)
    ∧ (∀ debit credit : String, debit ≠ "" →
        decimalParse (normalizeAmount debit) = none → _parse_amount debit credit = (0, true))
    ∧ (∀ credit : String, credit ≠ "" →
        decimalParse (normalizeAmount credit) = none → _parse_amount "" credit = (0, true))
    ∧ (∀ (categories : List (String × List String)) (gen : ℕ → String)
        (rows : List Row) (existing_columns : List String),
        (process_rows categories gen rows existing_columns).length = rows.length) := by
  refine ⟨rfl, ?_, ?_, ?_⟩
  · intro debit credit hd hn
    simp only [_parse_amount, if_pos hd, hn]
  · intro credit hc hn
    simp only [_parse_amount]
    rw [if_neg (by simp), if_pos hc, hn]
  · intro categories gen rows existing_columns
    exact process_rows_aux_length categories gen _ rows 0

theorem c8_parse_failure_nonfatal_witness :
    _parse_amount "abc" "" = (0, true)
    ∧ _parse_amount "" "1.2.3" = (0, true)
    ∧ (process_rows [] (fun _ => "t") [[("Belastung", "abc")]] []).length = 1 :=
  ⟨c8_parse_failure_nonfatal.2.1 "abc" "" (by decide) (by decide),
   c8_parse_failure_nonfatal.2.2.1 "1.2.3" (by decide) (by decide),
   c8_parse_failure_nonfatal.2.2.2 [] (fun _ => "t") [[("Belastung", "abc")]] []⟩

/-- C9: the combined description passed to the classifier is the
space-separated concatenation of the non-empty description fields in
order, an empty field contributing nothing (not even a separator): the
source's `" ".join(filter(None, ...))` agrees with the spec's
description of the join on every triple of fields, and the fields
["", "Coffee Shop", ""] yield exactly "Coffee Shop". -/
theorem c9_combined_description :
    (∀ b1 b2 b3 : String,
      combined_description b1 b2 b3 = specCombinedDescription [b1, b2, b3])
    ∧ combined_description "" "Coffee Shop" "" = "Coffee Shop" := by
  constructor
  · intro b1 b2 b3
    have e3 : ∀ s : String, specCombinedDescription [s] = s := by
      intro s
      by_cases h : s = ""
      · simp [specCombinedDescription, h]
      · simp [specCombinedDescription, h]
    have hne : ∀ s t : String, s ++ " " ++ t ≠ "" := by
      intro s t h
      have hl := congrArg String.length h
      rw [String.length_append, String.length_append] at hl
      have h1 : (" " : String).length = 1 := rfl
      have h0 : ("" : String).length = 0 := rfl
      omega
    by_cases h1 : b1 = "" <;> by_cases h2 : b2 = "" <;> by_cases h3 : b3 = "" <;>
      simp [combined_description, specCombinedDescription, List.filter, h1, h2, h3, joinSep,
        e3, hne b2 b3]
  · rfl

/-- C2: with a non-empty pre-existing category supplied (the categories
of the mapping being non-empty names, per the data-model invariant): if
the keyword scan derives a category different from the pre-existing
one, the derived category is returned and the conflict warning is
reported; if no keyword matches, the pre-existing category is returned
unconditionally for every amount — the amount-threshold fallback is
never applied. -/
theorem c2_existing_category_reconciliation (categories : List (String × List String))
    (description e : String) (he : e ≠ "")
    (hinv : ∀ p ∈ categories, p.1 ≠ "") :
    (∀ c, findMatch categories (lowerStr description) = some c → c ≠ e →
      ∀ amount : ℚ,
        classify_transaction categories description amount (some e) = (c, true))
    ∧ (findMatch categories (lowerStr description) = none →
      ∀ amount : ℚ,
        classify_transaction categories description amount (some e) = (e, false)) := by
  have ht : truthyOpt (some e) = true := by
    simp [truthyOpt, he]
  constructor
  · intro c hc hne amount
    have hcne : c ≠ "" := by
      obtain ⟨p, hp, hpc⟩ := findMatch_mem hc
      exact hpc ▸ hinv p hp
    simp only [classify_transaction, ht, if_true, hc, Option.getD_some]
    rw [if_pos ⟨hcne, hne⟩]
  · intro hn amount
    simp only [classify_transaction, ht, if_true, hn, Option.getD_some]

theorem c2_existing_category_reconciliation_witness :
    classify_transaction [("Food", ["coffee"])] "Morning COFFEE" 0 (some "Transport")
      = ("Food", true)
    ∧ classify_transaction [("Food", ["coffee"])] "zzz" 5000 (some "Transport")
      = ("Transport", false) :=
  ⟨(c2_existing_category_reconciliation [("Food", ["coffee"])] "Morning COFFEE" "Transport"
      (by decide) (by decide)).1 "Food" (by decide) (by decide) 0,
   (c2_existing_category_reconciliation [("Food", ["coffee"])] "zzz" "Transport"
      (by decide) (by decide)).2 (by decide) 5000⟩

/-- C4: with no pre-existing category and a description matching no
keyword, a positive amount strictly above 3000 yields "Gehalt", a
negative amount of magnitude strictly above 1000 yields
"Grosse Ausgaben", and the exact boundary amounts 3000 and -1000 yield
the sentinel "Sonstiges" instead; no conflict warning is possible. -/
theorem c4_amount_threshold_fallback (categories : List (String × List String))
    (description : String)
    (h : findMatch categories (lowerStr description) = none) :
    (∀ amount : ℚ, 3000 < amount →
      classify_transaction categories description amount none = ("Gehalt", false))
    ∧ (∀ amount : ℚ, amount < 0 → 1000 < |amount| →
      classify_transaction categories description amount none = ("Grosse Ausgaben", false))
    ∧ classify_transaction categories description 3000 none = ("Sonstiges", false)
    ∧ classify_transaction categories description (-1000) none = ("Sonstiges", false) := by
  have ht : truthyOpt none = false := rfl
  refine ⟨?_, ?_, ?_, ?_⟩
  · intro amount ha
    have h0 : (0 : ℚ) < amount := lt_trans (by norm_num) ha
    simp only [classify_transaction, ht, Bool.false_eq_true, if_false, h]
    rw [if_pos h0, if_pos ha]
  · intro amount ha hm
    simp only [classify_transaction, ht, Bool.false_eq_true, if_false, h]
    rw [if_neg (by exact absurd · (not_lt.mpr ha.le)), if_pos ha, if_pos hm]
  · simp only [classify_transaction, ht, Bool.false_eq_true, if_false, h]
    rw [if_pos (by norm_num : (0 : ℚ) < 3000), if_neg (by norm_num : ¬ ((3000 : ℚ) < 3000))]
  · simp only [classify_transaction, ht, Bool.false_eq_true, if_false, h]
    rw [if_neg (by norm_num : ¬ ((0 : ℚ) < -1000)), if_pos (by norm_num : (-1000 : ℚ) < 0),
      if_neg (by rw [abs_neg, abs_of_pos (by norm_num)]; norm_num)]

theorem c4_amount_threshold_fallback_witness :
    classify_transaction [] "anything" 3500 none = ("Gehalt", false)
    ∧ classify_transaction [] "anything" (-1500) none = ("Grosse Ausgaben", false)
    ∧ classify_transaction [] "anything" 3000 none = ("Sonstiges", false)
    ∧ classify_transaction [] "anything" (-1000) none = ("Sonstiges", false) :=
  ⟨(c4_amount_threshold_fallback [] "anything" (by decide)).1 3500 (by norm_num),
   (c4_amount_threshold_fallback [] "anything" (by decide)).2.1 (-1500) (by norm_num)
     (by rw [abs_neg, abs_of_pos] <;> norm_num),
   (c4_amount_threshold_fallback [] "anything" (by decide)).2.2.1,
   (c4_amount_threshold_fallback [] "anything" (by decide)).2.2.2⟩

/-- C5: for every category mapping and every description that contains
(case-insensitively, as a substring) a keyword of the category `c`
while containing no keyword of any category declared earlier, the
classification with no pre-existing category returns `c`, whatever the
amount — the first-declared matching category wins. -/
theorem c5_first_declared_category_wins (pre post : List (String × List String))
    (c : String) (kws : List String) (description keyword : String) (amount : ℚ)
    (hkw : keyword ∈ kws)
    (hmatch : containsSub (lowerStr keyword) (lowerStr description) = true)
    (hpre : ∀ p ∈ pre, ∀ kw ∈ p.2,
      containsSub (lowerStr kw) (lowerStr description) = false) :
    classify_transaction (pre ++ (c, kws) :: post) description amount none = (c, false) := by
  have ht : truthyOpt none = false := rfl
  have hhit : (kws.any (fun kw => containsSub (lowerStr kw) (lowerStr description))) = true := by
    rw [List.any_eq_true]
    exact ⟨keyword, hkw, hmatch⟩
  have hfm : findMatch (pre ++ (c, kws) :: post) (lowerStr description) = some c := by
    rw [findMatch_append_of_miss pre _ _ ?_, findMatch_cons_hit c kws post _ hhit]
    intro p hp
    rw [List.any_eq_false]
    intro kw hkw2
    simp [hpre p hp kw hkw2]
  simp only [classify_transaction, ht, Bool.false_eq_true, if_false, hfm]

theorem c5_first_declared_category_wins_witness :
    classify_transaction [("Transport", ["train"]), ("Food", ["coffee"])]
      "Morning COFFEE run" 9999 none = ("Food", false) :=
  c5_first_declared_category_wins [("Transport", ["train"])] [] "Food" ["coffee"]
    "Morning COFFEE run" "coffee" 9999 (by decide) (by decide) (by decide)

/-- C10: a classification call whose pre-existing category argument is
the empty string behaves exactly as if no pre-existing category had
been supplied (the empty string is falsy at line 159): keyword matching
and the amount fallback apply, the conflict warning is never emitted,
and — when no configured category name is empty, per the data-model
invariant — the empty string is never the returned category. -/
theorem c10_empty_existing_category (categories : List (String × List String))
    (description : String) (amount : ℚ) :
    classify_transaction categories description amount (some "")
      = classify_transaction categories description amount none
    ∧ (classify_transaction categories description amount (some "")).2 = false
    ∧ ((∀ p ∈ categories, p.1 ≠ "") →
      (classify_transaction categories description amount (some "")).1 ≠ "") := by
  have heq : classify_transaction categories description amount (some "")
      = classify_transaction categories description amount none := by
    simp only [classify_transaction, truthyOpt]
    rfl
  refine ⟨heq, ?_, ?_⟩
  · rw [heq]
    simp only [classify_transaction, truthyOpt, Bool.false_eq_true, if_false]
    cases hf : findMatch categories (lowerStr description) with
    | some c => rfl
    | none => split_ifs <;> rfl
  · intro hinv
    rw [heq]
    simp only [classify_transaction, truthyOpt, Bool.false_eq_true, if_false]
    cases hf : findMatch categories (lowerStr description) with
    | some c =>
      obtain ⟨p, hp, hpc⟩ := findMatch_mem hf
      exact hpc ▸ hinv p hp
    | none => split_ifs <;> decide

theorem c10_empty_existing_category_witness :
    classify_transaction [("Food", ["coffee"])] "tea time" 42 (some "")
      = classify_transaction [("Food", ["coffee"])] "tea time" 42 none
    ∧ (classify_transaction [("Food", ["coffee"])] "tea time" 42 (some "")).1 ≠ "" :=
  ⟨(c10_empty_existing_category [("Food", ["coffee"])] "tea time" 42).1,
   (c10_empty_existing_category [("Food", ["coffee"])] "tea time" 42).2.2 (by decide)⟩

/-- C3: for every record of a processing run (the uuid4 supply being
modelled as pairwise-distinct tokens that never collide with a stored
identifier, which is what "a random unique token" provides): a record
already carrying an "ID" field keeps its value verbatim on the output
record; a record without one gets the freshly drawn identifier of its
position, which differs from every other identifier of the run; and
when every record already carries an identifier — reprocessing an
already-classified output — the output identifiers are exactly the
input identifiers. -/
theorem c3_identifier_assignment (categories : List (String × List String)) (gen : ℕ → String)
    (rows : List Row) (existing_columns : List String)
    (hinj : ∀ i < rows.length, ∀ j < rows.length, gen i = gen j → i = j)
    (hfresh : ∀ i < rows.length, ∀ r ∈ rows, getField r "ID" ≠ some (gen i)) :
    (∀ k r v, rows.get? k = some r → getField r "ID" = some v →
      outId categories gen rows existing_columns k = some v)
    ∧ (∀ k r, rows.get? k = some r → getField r "ID" = none →
      outId categories gen rows existing_columns k = some (gen k)
      ∧ ∀ j, j < rows.length → j ≠ k →
        outId categories gen rows existing_columns j ≠ some (gen k))
    ∧ ((∀ r ∈ rows, (getField r "ID").isSome) →
      (process_rows categories gen rows existing_columns).map (fun r => getField r "ID")
        = rows.map (fun r => getField r "ID")) := by
  refine ⟨?_, ?_, ?_⟩
  · intro k r v hk hid
    rw [outId_eq, hk]
    simp [hid]
  · intro k r hk hid
    have hklen : k < rows.length := (List.get?_eq_some.mp hk).1
    constructor
    · rw [outId_eq, hk]
      simp [hid]
    · intro j hj hjk heq
      rw [outId_eq, List.get?_eq_get hj] at heq
      simp only [Option.map_some', Option.some.injEq] at heq
      cases hrid : getField (rows.get ⟨j, hj⟩) "ID" with
      | some v =>
        rw [hrid] at heq
        simp only [Option.getD_some] at heq
        exact hfresh k hklen (rows.get ⟨j, hj⟩) (rows.get_mem j hj) (by rw [hrid, heq])
      | none =>
        rw [hrid] at heq
        simp only [Option.getD_none] at heq
        exact hjk (hinj j hj k hklen heq)
  · intro hall
    exact process_rows_aux_map_id categories gen _ rows 0 hall

theorem c3_identifier_assignment_witness :
    outId [] (fun i => if i = 0 then "g0" else "g1") [[("ID", "keep")], [("x", "y")]] [] 0
      = some "keep"
    ∧ outId [] (fun i => if i = 0 then "g0" else "g1") [[("ID", "keep")], [("x", "y")]] [] 1
      = some "g1" :=
  ⟨(c3_identifier_assignment [] (fun i => if i = 0 then "g0" else "g1")
      [[("ID", "keep")], [("x", "y")]] [] (by decide) (by decide)).1
      0 [("ID", "keep")] "keep" (by decide) (by decide),
   ((c3_identifier_assignment [] (fun i => if i = 0 then "g0" else "g1")
      [[("ID", "keep")], [("x", "y")]] [] (by decide) (by decide)).2.1
      1 [("x", "y")] (by decide) (by decide)).1⟩

/-- C7: when no line of the input reaches the 80% header-match
threshold (fewer than 80% of the 14 expected column names among the
line's semicolon-separated tokens), cleaning fails with the
header-not-found error and processing produces no output, only that
error; when some line reaches the threshold, the first such line
becomes the header and all earlier lines are discarded. -/
theorem c7_header_threshold (parseRows : List String → List Row)
    (categories : List (String × List String)) (gen : ℕ → String) :
    (∀ content : List String, (∀ l ∈ content, headerMatchesThreshold l = false) →
      _clean_csv_content content = Except.error ProcError.headerNotFound
      ∧ process_transactions parseRows categories gen content
          = Except.error ProcError.headerNotFound)
    ∧ (∀ (pre : List String) (line : String) (post : List String),
        (∀ l ∈ pre, headerMatchesThreshold l = false) →
        headerMatchesThreshold line = true →
        _clean_csv_content (pre ++ line :: post)
          = Except.ok (line :: post, lineColumns line)) := by
  have hclean : ∀ content : List String, (∀ l ∈ content, headerMatchesThreshold l = false) →
      _clean_csv_content content = Except.error ProcError.headerNotFound := by
    intro content
    induction content with
    | nil => intro _; rfl
    | cons line rest ih =>
      intro h
      have h1 := h line (by simp)
      simp only [_clean_csv_content, h1, Bool.false_eq_true, if_false]
      exact ih (fun l hl => h l (by simp [hl]))
  constructor
  · intro content h
    refine ⟨hclean content h, ?_⟩
    simp only [process_transactions, hclean content h]
  · intro pre line post hpre hline
    induction pre with
    | nil =>
      simp only [List.nil_append, _clean_csv_content, hline, if_true]
    | cons a pre ih =>
      have ha := hpre a (by simp)
      simp only [List.cons_append, _clean_csv_content, ha, Bool.false_eq_true, if_false]
      exact ih (fun l hl => hpre l (by simp [hl]))

theorem c7_header_threshold_witness :
    _clean_csv_content ["hello;world", "Datum;Betrag"]
      = Except.error ProcError.headerNotFound
    ∧ process_transactions (fun _ => []) [] (fun _ => "t") ["hello;world", "Datum;Betrag"]
        = Except.error ProcError.headerNotFound
    ∧ _clean_csv_content ["Kontoauszug 2024", "Abschlussdatum;Abschlusszeit;Buchungsdatum;Valutadatum;Währung;Belastung;Gutschrift;Einzelbetrag;Saldo;Transaktions-Nr.;Beschreibung1;Beschreibung2;Beschreibung3;Fussnoten", "1;2"]
        = Except.ok (["Abschlussdatum;Abschlusszeit;Buchungsdatum;Valutadatum;Währung;Belastung;Gutschrift;Einzelbetrag;Saldo;Transaktions-Nr.;Beschreibung1;Beschreibung2;Beschreibung3;Fussnoten", "1;2"],
          lineColumns "Abschlussdatum;Abschlusszeit;Buchungsdatum;Valutadatum;Währung;Belastung;Gutschrift;Einzelbetrag;Saldo;Transaktions-Nr.;Beschreibung1;Beschreibung2;Beschreibung3;Fussnoten") :=
  ⟨((c7_header_threshold (fun _ => []) [] (fun _ => "t")).1
      ["hello;world", "Datum;Betrag"] (by decide)).1,
   ((c7_header_threshold (fun _ => []) [] (fun _ => "t")).1
      ["hello;world", "Datum;Betrag"] (by decide)).2,
   (c7_header_threshold (fun _ => []) [] (fun _ => "t")).2
      ["Kontoauszug 2024"]
      "Abschlussdatum;Abschlusszeit;Buchungsdatum;Valutadatum;Währung;Belastung;Gutschrift;Einzelbetrag;Saldo;Transaktions-Nr.;Beschreibung1;Beschreibung2;Beschreibung3;Fussnoten"
      ["1;2"] (by decide) (by decide)⟩
